import Mathlib

/-
Verification development for the EnergyLink core subsystem:
a shallow embedding of the persistent settings/control-state store
(src/server/storage.ts) and of the rate-limited, sanitizing external
command executor (src/server/e3dc-client.ts), together with theorems
settling the specification claims.

Strings manipulated by the sanitizer are modelled as `List Char`; JavaScript
global regex replacement is modelled by a fuel-indexed left-to-right scanner
(`genScan`) parameterised by a match function returning the length of the
match at the current position, mirroring how `String.prototype.replace` with
a global pattern walks the subject string and resumes after each match.
Timestamps are modelled as `Int` (JavaScript `Date.now()` values).
-/

namespace EnergyLink

/-! ## Character classes (JavaScript regex classes over the ASCII range) -/

/-- JavaScript whitespace class membership for the characters relevant here
(space, tab, newline, carriage return, vertical tab, form feed). -/
def isWS (c : Char) : Bool :=
  c = ' ' || c = '\t' || c = '\n' || c = '\r' || c = '\x0b' || c = '\x0c'

/-- Character class of the separator part of the flag patterns: the set
matched by the regex class of an equals sign or whitespace. -/
def isEqWS (c : Char) : Bool :=
  c = '=' || isWS c

/-- JavaScript word-character class (letters, digits, underscore). -/
def isWordChar (c : Char) : Bool :=
  c.isAlphanum || c = '_'

/-- Case-insensitive equality of two character lists, for the i-flagged
patterns of the sanitizer. -/
def lowerEq (a b : List Char) : Bool :=
  a.map Char.toLower == b.map Char.toLower

/-- Model of JavaScript trim on a character list: whitespace removed from
both ends. -/
def trimChars (l : List Char) : List Char :=
  ((l.dropWhile isWS).reverse.dropWhile isWS).reverse

/-! ## Generic global-replacement scanner -/

/-- Global replacement scanner: walks the subject string left to right; at
each position asks the match function `m` (given the previous original
character, for word boundaries, and the remaining input) for the length of a
match; on a match of length `len + 1`, emits `marker` and resumes after the
matched characters; otherwise copies one character.  The fuel argument is
instantiated with the length of the subject, which bounds the recursion. -/
def genScan (m : Option Char → List Char → Option Nat) (marker : List Char) :
    Nat → Option Char → List Char → List Char
  | 0, _, s => s
  | _ + 1, _, [] => []
  | fuel + 1, prev, c :: rest =>
    match m prev (c :: rest) with
    | some (len + 1) =>
      marker ++ genScan m marker fuel (some ((c :: rest).getD len c)) (List.drop len rest)
    | _ => c :: genScan m marker fuel (some c) rest

/-- Match function for literal (regex-escaped) global replacement: a match
of the pattern as a prefix of the remaining input.  The executor only ever
passes non-empty literals (the command string is non-empty past the empty
command guard, and secrets are filtered to be non-empty). -/
def litMatch (pat : List Char) (_ : Option Char) (s : List Char) : Option Nat :=
  if pat.isEmpty then none
  else if pat.isPrefixOf s then some pat.length else none

/-- Index of the last equals sign of a character list, if any. -/
def lastEqIdx : List Char → Option Nat
  | [] => none
  | c :: rest =>
    match lastEqIdx rest with
    | some i => some (i + 1)
    | none => if c = '=' then some 0 else none

/-- Match function for the seven double-dash flag patterns and the single
dash pattern of `sanitizeOutput`: a case-insensitive literal prefix, then
one or more separator characters (equals or whitespace, greedy), then one
or more non-whitespace characters (greedy).  When the separator run reaches
the end of the input the greedy engine backtracks, handing the trailing
equals sign (if any, and if at least one separator character remains) to the
non-whitespace part. -/
def flagMatch (pfx : List Char) (_ : Option Char) (s : List Char) : Option Nat :=
  if lowerEq (s.take pfx.length) pfx then
    let rest := s.drop pfx.length
    let sep := rest.takeWhile isEqWS
    if sep.isEmpty then none
    else
      let after := rest.drop sep.length
      if after.isEmpty then
        match lastEqIdx sep with
        | some a => if 1 ≤ a then some (pfx.length + a + 1) else none
        | none => none
      else some (pfx.length + sep.length + (after.takeWhile (fun c => !isWS c)).length)
  else none

/-- Alternatives of the word-boundary pattern, in source order. -/
def wordAlts : List (List Char) :=
  [("password").toList, ("pass").toList, ("token").toList, ("auth").toList,
   ("apikey").toList, ("api-key").toList, ("secret").toList, ("key").toList]

/-- Try the alternation of the word-boundary pattern at the current
position: each alternative is a case-insensitive literal, followed by
exactly one equals sign or colon, followed by one or more non-whitespace
characters; on failure of the continuation the engine falls through to the
next alternative. -/
def altMatch (s : List Char) : List (List Char) → Option Nat
  | [] => none
  | alt :: more =>
    if lowerEq (s.take alt.length) alt then
      match s.drop alt.length with
      | c :: rest2 =>
        if c = '=' || c = ':' then
          let m := (rest2.takeWhile (fun c => !isWS c)).length
          if m = 0 then altMatch s more else some (alt.length + 1 + m)
        else altMatch s more
      | [] => altMatch s more
    else altMatch s more

/-- Match function for the ninth sanitizer pattern: a word boundary (start
of input, or previous character not a word character), then the keyword
alternation with a single equals-or-colon separator and a non-whitespace
tail. -/
def wordMatch (prev : Option Char) (s : List Char) : Option Nat :=
  let boundary := match prev with
    | none => true
    | some p => !isWordChar p
  if boundary then altMatch s wordAlts else none

/-! ## The sanitizer (sanitizeOutput of src/server/e3dc-client.ts) -/

/-- Replacement marker for the command-string redaction step. -/
def commandRedactedTok : List Char := ("[COMMAND REDACTED]").toList

/-- Replacement marker for the pattern redaction steps. -/
def redactedTok : List Char := ("[REDACTED]").toList

/-- Replacement marker for the configured-secret redaction steps. -/
def starsTok : List Char := ("***").toList

/-- Literal global replacement of `pat` by `marker` in `s`. -/
def applyLit (pat marker s : List Char) : List Char :=
  genScan (litMatch pat) marker s.length none s

/-- Global replacement of one double-dash or single-dash flag pattern. -/
def applyFlagPat (pfx s : List Char) : List Char :=
  genScan (flagMatch pfx) redactedTok s.length none s

/-- Global replacement of the word-boundary keyword pattern. -/
def applyWordPat (s : List Char) : List Char :=
  genScan wordMatch redactedTok s.length none s

/-- The sanitization routine: first the literal command string is redacted,
then the nine sensitive patterns are applied in source order, then every
configured secret value that is non-empty after trimming is literally
replaced by a short marker. -/
def sanitizeOutput (value command : List Char) (extraSecrets : List (List Char)) : List Char :=
  let s0 := applyLit command commandRedactedTok value
  let s1 := applyFlagPat (("--password").toList) s0
  let s2 := applyFlagPat (("--pass").toList) s1
  let s3 := applyFlagPat (("--token").toList) s2
  let s4 := applyFlagPat (("--auth").toList) s3
  let s5 := applyFlagPat (("--apikey").toList) s4
  let s6 := applyFlagPat (("--api-key").toList) s5
  let s7 := applyFlagPat (("--secret").toList) s6
  let s8 := applyFlagPat (("-p").toList) s7
  let s9 := applyWordPat s8
  extraSecrets.foldl
    (fun acc secret =>
      if secret.isEmpty || (trimChars secret).isEmpty then acc
      else applyLit secret starsTok acc) s9

/-! ## The external command executor (src/server/e3dc-client.ts) -/

/-- The E3DC configuration object: the enabled flag, the four opaque command
strings, and the night-charging grid-charge flag. -/
structure E3dcConfig where
  enabled : Bool
  dischargeLockEnableCommand : Option String
  dischargeLockDisableCommand : Option String
  gridChargeEnableCommand : Option String
  gridChargeDisableCommand : Option String
  gridChargeDuringNightCharging : Option Bool
deriving DecidableEq

/-- Executor state: the optional active configuration and the timestamp of
the last successfully completed command (0 initially). -/
structure ClientState where
  config : Option E3dcConfig
  lastCommandTime : Int
deriving DecidableEq

/-- The fixed minimum interval between commands, in milliseconds. -/
def RATE_LIMIT_MS : Int := 5000

/-- Environment outcome of the spawned shell command: success carries the
wall-clock time at which the execution completed and control returned
(the Date.now() read after the await); failure carries the wall-clock time
at which the failure was handled. -/
inductive ExecOutcome where
  | ok (tdone : Int)
  | err (terr : Int)
deriving DecidableEq

/-- Observable events of one executeCommand call, in order of occurrence. -/
inductive ExecEvent where
  | skippedNoCommand
  | waited (ms : Int)
  | execStarted (t : Int)
  | updatedLct (t : Int)
  | threw
deriving DecidableEq

/-- Result of one executeCommand call: the post state, the ordered event
trace, whether the call resolved (true) or rejected (false), and the
wall-clock time at which the underlying shell execution started (none when
no execution was spawned). -/
structure ExecResult where
  state : ClientState
  events : List ExecEvent
  ok : Bool
  execStart : Option Int
deriving DecidableEq

/-- Shallow embedding of executeCommand: an absent or trim-empty command is
a successful no-op; otherwise the call computes the elapsed time since the
last command, waits out the remaining delta when a previous command has run
less than RATE_LIMIT_MS ago, starts the execution at now plus that wait, and
on success records the completion time as the new lastCommandTime, while on
failure it rejects leaving lastCommandTime unchanged. -/
def executeCommand (command : Option String) (st : ClientState) (now : Int)
    (outcome : ExecOutcome) : ExecResult :=
  match command with
  | none => ⟨st, [ExecEvent.skippedNoCommand], true, none⟩
  | some c =>
    if trimChars c.toList = [] then ⟨st, [ExecEvent.skippedNoCommand], true, none⟩
    else
      let timeSince := now - st.lastCommandTime
      let waitTime :=
        if st.lastCommandTime > 0 ∧ timeSince < RATE_LIMIT_MS
        then RATE_LIMIT_MS - timeSince else 0
      let startT := now + waitTime
      let waitEvents :=
        if st.lastCommandTime > 0 ∧ timeSince < RATE_LIMIT_MS
        then [ExecEvent.waited waitTime] else []
      match outcome with
      | ExecOutcome.ok tdone =>
        ⟨⟨st.config, tdone⟩,
         waitEvents ++ [ExecEvent.execStarted startT, ExecEvent.updatedLct tdone],
         true, some startT⟩
      | ExecOutcome.err _ =>
        ⟨st, waitEvents ++ [ExecEvent.execStarted startT, ExecEvent.threw],
         false, some startT⟩

/-- lockDischarge: requires a configuration (none models the thrown
configuration error) and delegates to executeCommand with the discharge
lock enable command. -/
def lockDischarge (st : ClientState) (now : Int) (outcome : ExecOutcome) :
    Option ExecResult :=
  match st.config with
  | none => none
  | some cfg => some (executeCommand cfg.dischargeLockEnableCommand st now outcome)

/-- enableGridCharge: requires a configuration and delegates to
executeCommand with the grid charge enable command. -/
def enableGridCharge (st : ClientState) (now : Int) (outcome : ExecOutcome) :
    Option ExecResult :=
  match st.config with
  | none => none
  | some cfg => some (executeCommand cfg.gridChargeEnableCommand st now outcome)

/-- Configuration-changing operations of the executor. -/
inductive ClientOp where
  | configure (cfg : E3dcConfig)
  | disconnect

/-- Effect of one configure or disconnect call on the stored configuration:
configure throws (leaving the state unchanged) when the configuration is
not enabled, otherwise replaces the stored configuration; disconnect clears
it. -/
def applyOp (config : Option E3dcConfig) : ClientOp → Option E3dcConfig
  | ClientOp.configure cfg => if cfg.enabled then some cfg else config
  | ClientOp.disconnect => none

/-- Stored configuration after a sequence of configure and disconnect
calls, starting from `config`. -/
def applyOps (config : Option E3dcConfig) (ops : List ClientOp) : Option E3dcConfig :=
  ops.foldl applyOp config

/-- isConfigured: the configuration is present and its enabled flag is
true. -/
def isConfigured (config : Option E3dcConfig) : Bool :=
  match config with
  | some cfg => cfg.enabled
  | none => false

/-! ## The storage layer (src/server/storage.ts) -/

/-- Log levels of the storage logger. -/
inductive LogLevel where
  | debug
  | info
  | warning
  | error
deriving DecidableEq

/-- A log emission: a level and a message. -/
abbrev LogMsg := LogLevel × String

/-- The night-charging schedule record. -/
structure NightChargingSchedule where
  enabled : Bool
  startTime : String
  endTime : String
deriving DecidableEq

/-- The Settings object as the server manipulates it: wallboxIp is always a
string; the other endpoint fields, the backup fields, the demo flag and the
timezone are optional. -/
structure Settings where
  wallboxIp : String
  e3dcIp : Option String
  pvSurplusOnUrl : Option String
  pvSurplusOffUrl : Option String
  wallboxIpBackup : Option String
  e3dcIpBackup : Option String
  pvSurplusOnUrlBackup : Option String
  pvSurplusOffUrlBackup : Option String
  demoMode : Option Bool
  nightChargingSchedule : NightChargingSchedule
  timezone : Option String
deriving DecidableEq

/-- A raw persisted settings document, as JSON.parse yields it: every field
may be absent. -/
structure PartialSettings where
  wallboxIp : Option String
  e3dcIp : Option String
  pvSurplusOnUrl : Option String
  pvSurplusOffUrl : Option String
  wallboxIpBackup : Option String
  e3dcIpBackup : Option String
  pvSurplusOnUrlBackup : Option String
  pvSurplusOffUrlBackup : Option String
  demoMode : Option Bool
  nightChargingSchedule : Option NightChargingSchedule
  timezone : Option String
deriving DecidableEq

/-- The settings document with every field absent. -/
def emptyPartialSettings : PartialSettings :=
  ⟨none, none, none, none, none, none, none, none, none, none, none⟩

/-- JavaScript truthiness of an optional string: present and non-empty. -/
def optTruthy : Option String → Bool
  | none => false
  | some s => !(s == "")

/-- JavaScript truthiness of an optional boolean, as in the expression that
ors the flag with false. -/
def boolTruthy : Option Bool → Bool
  | none => false
  | some b => b

/-- Fixed log message: settings loaded. -/
def loadedSettingsMsg : String := "Einstellungen geladen"

/-- Fixed log message: settings failed to load. -/
def loadSettingsFailMsg : String := "Fehler beim Laden der Einstellungen"

/-- Fixed log message: settings saved to file. -/
def savedSettingsMsg : String := "Einstellungen gespeichert"

/-- The hard-coded default settings document of loadSettingsFromFile. -/
def settingsDefaults : PartialSettings :=
  { wallboxIp := some ("192.168.40.16"),
    e3dcIp := none,
    pvSurplusOnUrl := some ("http://192.168.40.11:8083/fhem?detail=autoWallboxPV&cmd.autoWallboxPV=set%20autoWallboxPV%20on"),
    pvSurplusOffUrl := some ("http://192.168.40.11:8083/fhem?detail=autoWallboxPV&cmd.autoWallboxPV=set%20autoWallboxPV%20off"),
    wallboxIpBackup := none,
    e3dcIpBackup := none,
    pvSurplusOnUrlBackup := none,
    pvSurplusOffUrlBackup := none,
    demoMode := none,
    nightChargingSchedule := some ⟨false, ("00:00"), ("05:00")⟩,
    timezone := none }

/-- Model of saveSettingsToFile: serializes and writes the document (the
write is recorded), logging at debug level.  Write failures are logged and
swallowed; the model covers the successful write. -/
def saveSettingsToFile (s : PartialSettings) : List LogMsg × List PartialSettings :=
  ([(LogLevel.debug, savedSettingsMsg)], [s])

/-- Shallow embedding of loadSettingsFromFile.  Inputs: whether the file
exists, and the parse result (none models a read or parse failure of an
existing file).  Outputs: the settings value used, the log emissions, and
the list of documents written to disk by the load. -/
def loadSettingsFromFile (fileExists : Bool) (parsed : Option PartialSettings) :
    PartialSettings × List LogMsg × List PartialSettings :=
  match fileExists, parsed with
  | true, some loaded => (loaded, [(LogLevel.debug, loadedSettingsMsg)], [])
  | true, none =>
    let save := saveSettingsToFile settingsDefaults
    (settingsDefaults, (LogLevel.warning, loadSettingsFailMsg) :: save.1, save.2)
  | false, _ =>
    let save := saveSettingsToFile settingsDefaults
    (settingsDefaults, save.1, save.2)

/-- The control-state record with its four boolean flags. -/
structure ControlState where
  pvSurplus : Bool
  nightCharging : Bool
  batteryLock : Bool
  gridCharging : Bool
deriving DecidableEq

/-- A raw persisted control-state document: every field may be absent. -/
structure PartialControlState where
  pvSurplus : Option Bool
  nightCharging : Option Bool
  batteryLock : Option Bool
  gridCharging : Option Bool
deriving DecidableEq

/-- The compiled-in default control state. -/
def controlStateDefaults : ControlState :=
  ⟨false, false, false, false⟩

/-- JavaScript object-spread merge of a loaded partial document over a base
object: fields present in the loaded document win. -/
def spreadControlState (base : ControlState) (loaded : PartialControlState) : ControlState :=
  ⟨loaded.pvSurplus.getD base.pvSurplus,
   loaded.nightCharging.getD base.nightCharging,
   loaded.batteryLock.getD base.batteryLock,
   loaded.gridCharging.getD base.gridCharging⟩

/-- Fixed log message: control state loaded. -/
def loadedControlStateMsg : String := "Control State geladen"

/-- Fixed log message: control state failed to load. -/
def loadControlStateFailMsg : String := "Fehler beim Laden des Control States"

/-- Shallow embedding of loadControlStateFromFile: a parsed document is
spread over the defaults (backward compatibility backfill); an absent file
or a parse failure yields the defaults, the latter with a warning. -/
def loadControlStateFromFile (fileExists : Bool) (parsed : Option PartialControlState) :
    ControlState × List LogMsg :=
  match fileExists, parsed with
  | true, some loaded =>
    (spreadControlState controlStateDefaults loaded, [(LogLevel.debug, loadedControlStateMsg)])
  | true, none => (controlStateDefaults, [(LogLevel.warning, loadControlStateFailMsg)])
  | false, _ => (controlStateDefaults, [])

/-- Shallow embedding of getControlState: the stored value (which may stem
from an old on-disk document, hence is modelled as partial) spread over the
compiled-in defaults, so the result always carries all four flags. -/
def getControlState (stored : PartialControlState) : ControlState :=
  spreadControlState controlStateDefaults stored

/-- The mock wallbox address substituted in demo mode. -/
def mockWallboxIp : String := "127.0.0.1"

/-- The compiled-in default wallbox address. -/
def defaultWallboxIp : String := "192.168.40.16"

/-- The mock E3DC address substituted in demo mode. -/
def mockE3dcIp : String := "127.0.0.1:5502"

/-- The mock FHEM on URL substituted in demo mode. -/
def mockPvOnUrl : String := "http://127.0.0.1:8083/fhem?cmd.autoWallboxPV=on"

/-- The mock FHEM off URL substituted in demo mode. -/
def mockPvOffUrl : String := "http://127.0.0.1:8083/fhem?cmd.autoWallboxPV=off"

/-- Warning message of the wallbox fallback on leaving demo mode without a
backup. -/
def wallboxFallbackWarnMsg : String :=
  "Demo-Modus deaktiviert ohne Backup - Wallbox Fallback auf Default-IP"

/-- Warning message of the E3DC address removal on leaving demo mode
without a backup. -/
def e3dcRemovedWarnMsg : String :=
  "Demo-Modus deaktiviert ohne E3DC Backup - E3DC IP entfernt"

/-- The demo-mode entry transformation (previous demoMode falsy, new
demoMode truthy): back up the wallbox address unconditionally and mock it;
mock the E3DC address unconditionally but back it up only when previously
truthy; back up and mock each FHEM URL only when truthy. -/
def demoOn (s : Settings) : Settings × List LogMsg :=
  let s1 := { s with wallboxIpBackup := some s.wallboxIp, wallboxIp := mockWallboxIp }
  let log1 : List LogMsg := [(LogLevel.debug, "Demo-Modus aktiviert - Wallbox Backup erstellt")]
  let p2 :=
    if optTruthy s1.e3dcIp then
      ({ s1 with e3dcIpBackup := s1.e3dcIp },
       [(LogLevel.debug, "Demo-Modus aktiviert - E3DC Backup erstellt")])
    else (s1, ([] : List LogMsg))
  let s3 := { p2.1 with e3dcIp := some mockE3dcIp }
  let p4 :=
    if optTruthy s3.pvSurplusOnUrl then
      ({ s3 with pvSurplusOnUrlBackup := s3.pvSurplusOnUrl, pvSurplusOnUrl := some mockPvOnUrl },
       [(LogLevel.debug, "Demo-Modus aktiviert - FHEM ON URL auf Mock-Server gesetzt")])
    else (s3, ([] : List LogMsg))
  let p5 :=
    if optTruthy p4.1.pvSurplusOffUrl then
      ({ p4.1 with pvSurplusOffUrlBackup := p4.1.pvSurplusOffUrl, pvSurplusOffUrl := some mockPvOffUrl },
       [(LogLevel.debug, "Demo-Modus aktiviert - FHEM OFF URL auf Mock-Server gesetzt")])
    else (p4.1, ([] : List LogMsg))
  (p5.1, log1 ++ p2.2 ++ p4.2 ++ p5.2)

/-- The demo-mode exit transformation (previous demoMode truthy, new
demoMode falsy): restore each field from the previous settings backup when
that backup is truthy and drop the backup; without a wallbox backup fall
back to the default address when the wallbox still holds the mock value,
logging a warning; without an E3DC backup delete the E3DC address entirely
when it still holds the mock value, logging a warning. -/
def demoOff (prev : Option Settings) (s : Settings) : Settings × List LogMsg :=
  let pwb := prev.bind fun p => p.wallboxIpBackup
  let p1 :=
    if optTruthy pwb then
      ({ s with wallboxIp := pwb.getD s.wallboxIp },
       [(LogLevel.debug, "Demo-Modus deaktiviert - Wallbox wiederhergestellt")])
    else if s.wallboxIp == mockWallboxIp then
      ({ s with wallboxIp := defaultWallboxIp }, [(LogLevel.warning, wallboxFallbackWarnMsg)])
    else (s, ([] : List LogMsg))
  let s2 := { p1.1 with wallboxIpBackup := none }
  let peb := prev.bind fun p => p.e3dcIpBackup
  let p3 :=
    if optTruthy peb then
      ({ s2 with e3dcIp := peb, e3dcIpBackup := none },
       [(LogLevel.debug, "Demo-Modus deaktiviert - E3DC wiederhergestellt")])
    else if s2.e3dcIp == some mockE3dcIp then
      ({ s2 with e3dcIp := none }, [(LogLevel.warning, e3dcRemovedWarnMsg)])
    else (s2, ([] : List LogMsg))
  let pob := prev.bind fun p => p.pvSurplusOnUrlBackup
  let p4 :=
    if optTruthy pob then
      ({ p3.1 with pvSurplusOnUrl := pob },
       [(LogLevel.debug, "Demo-Modus deaktiviert - FHEM ON URL wiederhergestellt")])
    else (p3.1, ([] : List LogMsg))
  let s5 := { p4.1 with pvSurplusOnUrlBackup := none }
  let pfb := prev.bind fun p => p.pvSurplusOffUrlBackup
  let p6 :=
    if optTruthy pfb then
      ({ s5 with pvSurplusOffUrl := pfb },
       [(LogLevel.debug, "Demo-Modus deaktiviert - FHEM OFF URL wiederhergestellt")])
    else (s5, ([] : List LogMsg))
  let s7 := { p6.1 with pvSurplusOffUrlBackup := none }
  (s7, p1.2 ++ p3.2 ++ p4.2 ++ p6.2)

/-- The transformation while demo mode stays on: live fields are forced to
the mock values; backups are carried over from the previous settings when
the incoming payload has none; a new non-mock E3DC address supplied while
mocked is moved into the backup slot; an explicit deletion of a previously
real E3DC address is honored and drops the backup. -/
def demoStay (prev : Option Settings) (s : Settings) : Settings × List LogMsg :=
  let s1 := { s with wallboxIp := mockWallboxIp }
  let s2 :=
    if !optTruthy s1.wallboxIpBackup && optTruthy (prev.bind fun p => p.wallboxIpBackup) then
      { s1 with wallboxIpBackup := prev.bind fun p => p.wallboxIpBackup }
    else s1
  let prevE3dc := prev.bind fun p => p.e3dcIp
  let prevE3dcB := prev.bind fun p => p.e3dcIpBackup
  let p3 :=
    if optTruthy s2.e3dcIp && !(s2.e3dcIp == some mockE3dcIp) then
      ({ s2 with e3dcIpBackup := s2.e3dcIp, e3dcIp := some mockE3dcIp },
       [(LogLevel.debug, "Demo-Modus aktiv - Neue E3DC IP gesichert")])
    else if s2.e3dcIp == some mockE3dcIp then
      (if !optTruthy s2.e3dcIpBackup && optTruthy prevE3dcB then
        { s2 with e3dcIpBackup := prevE3dcB }
       else s2, ([] : List LogMsg))
    else if !optTruthy s2.e3dcIp && prevE3dc == some mockE3dcIp then
      (let t := { s2 with e3dcIp := some mockE3dcIp }
       if !optTruthy t.e3dcIpBackup && optTruthy prevE3dcB then
         { t with e3dcIpBackup := prevE3dcB }
       else t, ([] : List LogMsg))
    else if !optTruthy s2.e3dcIp && optTruthy prevE3dc && !(prevE3dc == some mockE3dcIp) then
      ({ s2 with e3dcIpBackup := none },
       [(LogLevel.debug, "Demo-Modus aktiv - E3DC IP geloescht")])
    else (s2, ([] : List LogMsg))
  let s4 := { p3.1 with pvSurplusOnUrl := some mockPvOnUrl, pvSurplusOffUrl := some mockPvOffUrl }
  let s5 :=
    if !optTruthy s4.pvSurplusOnUrlBackup && optTruthy (prev.bind fun p => p.pvSurplusOnUrlBackup) then
      { s4 with pvSurplusOnUrlBackup := prev.bind fun p => p.pvSurplusOnUrlBackup }
    else s4
  let s6 :=
    if !optTruthy s5.pvSurplusOffUrlBackup && optTruthy (prev.bind fun p => p.pvSurplusOffUrlBackup) then
      { s5 with pvSurplusOffUrlBackup := prev.bind fun p => p.pvSurplusOffUrlBackup }
    else s5
  (s6, p3.2)

/-- Shallow embedding of saveSettings: derives the demo-mode transition
from the pair of previous and new demoMode flags, applies the matching
transformation, stores the result and persists it (the trailing debug log
models the file write of saveSettingsToFile). -/
def saveSettings (prev : Option Settings) (settings : Settings) : Settings × List LogMsg :=
  let wasDemoMode := boolTruthy (prev.bind fun p => p.demoMode)
  let isDemoMode := boolTruthy settings.demoMode
  let p :=
    if isDemoMode && !wasDemoMode then demoOn settings
    else if !isDemoMode && wasDemoMode then demoOff prev settings
    else if isDemoMode && wasDemoMode then demoStay prev settings
    else (settings, ([] : List LogMsg))
  (p.1, p.2 ++ [(LogLevel.debug, savedSettingsMsg)])

/-! ## Auxiliary notions used by the claim statements -/

/-- Modelled from the spec: the load contract of section 4.1 as worded
there, a merge of the loaded document over the hard-coded default object
(default first, then overwrite with loaded fields), used to compare the
settings loader against its specified behaviour. -/
def specMergeSettings (loaded : PartialSettings) : PartialSettings :=
  { wallboxIp := loaded.wallboxIp.orElse fun _ => settingsDefaults.wallboxIp,
    e3dcIp := loaded.e3dcIp.orElse fun _ => settingsDefaults.e3dcIp,
    pvSurplusOnUrl := loaded.pvSurplusOnUrl.orElse fun _ => settingsDefaults.pvSurplusOnUrl,
    pvSurplusOffUrl := loaded.pvSurplusOffUrl.orElse fun _ => settingsDefaults.pvSurplusOffUrl,
    wallboxIpBackup := loaded.wallboxIpBackup.orElse fun _ => settingsDefaults.wallboxIpBackup,
    e3dcIpBackup := loaded.e3dcIpBackup.orElse fun _ => settingsDefaults.e3dcIpBackup,
    pvSurplusOnUrlBackup :=
      loaded.pvSurplusOnUrlBackup.orElse fun _ => settingsDefaults.pvSurplusOnUrlBackup,
    pvSurplusOffUrlBackup :=
      loaded.pvSurplusOffUrlBackup.orElse fun _ => settingsDefaults.pvSurplusOffUrlBackup,
    demoMode := loaded.demoMode.orElse fun _ => settingsDefaults.demoMode,
    nightChargingSchedule :=
      loaded.nightChargingSchedule.orElse fun _ => settingsDefaults.nightChargingSchedule,
    timezone := loaded.timezone.orElse fun _ => settingsDefaults.timezone }

/-- The secret substring of the sanitization claim. -/
def abcTok : List Char := ("abc123").toList

/-- The literal flag prefix of the first sanitizer pattern. -/
def pwPfxTok : List Char := ("--password").toList

/-- The credential-bearing flag text preceding the secret in the claim. -/
def pwTok : List Char := ("--password=").toList

/-- The reverse of the flag text, used by the executable coverage check. -/
def pwRevTok : List Char := pwTok.reverse

/-- Every occurrence of the secret substring in `s` is immediately preceded
by the credential flag text. -/
def CoveredAbc (s : List Char) : Prop :=
  ∀ x y, s = x ++ abcTok ++ y → pwTok <:+ x

/-- Worker of the executable coverage check: scans the string keeping the
reversed already-read part, and at each occurrence of the secret substring
demands that the read part end with the flag text. -/
def goCov (preRev : List Char) : List Char → Bool
  | [] => true
  | c :: r =>
    ((!(abcTok.isPrefixOf (c :: r))) || pwRevTok.isPrefixOf preRev) && goCov (c :: preRev) r

/-- Executable version of `CoveredAbc`. -/
def coveredAbcB (s : List Char) : Bool := goCov [] s

/-- Whether the event trace contains a rate-limit wait. -/
def hasWaited : List ExecEvent → Bool
  | [] => false
  | ExecEvent.waited _ :: _ => true
  | _ :: rest => hasWaited rest

/-- Whether no lastCommandTime update in the trace precedes a rate-limit
wait; true of every trace of the executor, capturing that the timestamp is
never recorded before the wait. -/
def noUpdateBeforeWait : List ExecEvent → Bool
  | [] => true
  | ExecEvent.updatedLct _ :: rest => !hasWaited rest && noUpdateBeforeWait rest
  | _ :: rest => noUpdateBeforeWait rest

/-- A concrete non-demo settings object used as a sample input. -/
def demoRoundtripSample : Settings :=
  ⟨("10.0.0.7"), some ("10.0.0.8"), some ("http://fhem.example/on"),
   some ("http://fhem.example/off"), none, none, none, none, none,
   ⟨false, ("00:00"), ("05:00")⟩, none⟩

/-- A concrete settings object with an empty wallbox address. -/
def demoEmptyWallboxSettings : Settings :=
  ⟨(""), none, none, none, none, none, none, none, none,
   ⟨false, ("00:00"), ("05:00")⟩, none⟩

/-- A concrete previous settings object in demo mode without backups. -/
def demoPrevSample : Settings :=
  ⟨("127.0.0.1"), some ("127.0.0.1:5502"), none, none, none, none, none, none,
   some true, ⟨false, ("00:00"), ("05:00")⟩, none⟩

/-- A concrete incoming settings object leaving demo mode, still with mock
addresses. -/
def demoNewSample : Settings :=
  ⟨("127.0.0.1"), some ("127.0.0.1:5502"), none, none, none, none, none, none,
   some false, ⟨false, ("00:00"), ("05:00")⟩, none⟩

/-! ## List helper lemmas -/

/-- A prefix of an append is a prefix of the left part or extends it. -/
theorem prefix_append_split {α : Type} :
    ∀ (l₁ l₂ u : List α), u <+: l₁ ++ l₂ → u <+: l₁ ∨ ∃ w, u = l₁ ++ w ∧ w <+: l₂ := by
  intro l₁
  induction l₁ with
  | nil => intro l₂ u h; exact Or.inr ⟨u, rfl, by simpa using h⟩
  | cons a l₁ ih =>
    intro l₂ u h
    cases u with
    | nil => exact Or.inl List.nil_prefix
    | cons d u' =>
      rw [List.cons_append, List.cons_prefix_cons] at h
      obtain ⟨rfl, h'⟩ := h
      rcases ih l₂ u' h' with h1 | ⟨w, rfl, hw⟩
      · exact Or.inl (List.cons_prefix_cons.mpr ⟨rfl, h1⟩)
      · exact Or.inr ⟨w, by simp, hw⟩

/-- An infix of an append lies in the left part, lies in the right part, or
spans the boundary with a non-empty suffix of the left part and a non-empty
further prefix of the right part. -/
theorem infix_append_cases {α : Type} :
    ∀ (l₁ l₂ t : List α), t <:+: l₁ ++ l₂ →
      t <:+: l₁ ∨ t <:+: l₂ ∨
        ∃ t₁ t₂, t = t₁ ++ t₂ ∧ t₁ ≠ [] ∧ t₂ ≠ [] ∧ t₁ <:+ l₁ ∧ t₂ <+: l₂ := by
  intro l₁
  induction l₁ with
  | nil => intro l₂ t h; exact Or.inr (Or.inl (by simpa using h))
  | cons a l₁ ih =>
    intro l₂ t h
    rw [List.cons_append, List.infix_cons_iff] at h
    rcases h with h | h
    · cases t with
      | nil => exact Or.inl List.nil_infix
      | cons d t' =>
        rw [List.cons_prefix_cons] at h
        obtain ⟨rfl, h'⟩ := h
        rcases prefix_append_split l₁ l₂ t' h' with h1 | ⟨w, rfl, hw⟩
        · exact Or.inl (List.cons_prefix_cons.mpr ⟨rfl, h1⟩).isInfix
        · cases w with
          | nil => exact Or.inl (by rw [List.append_nil])
          | cons e w' =>
            refine Or.inr (Or.inr ⟨d :: l₁, e :: w', by simp, by simp, by simp,
              List.suffix_rfl, hw⟩)
    · rcases ih l₂ t h with h1 | h1 | ⟨t₁, t₂, rfl, hne1, hne2, hs, hp⟩
      · exact Or.inl (List.infix_cons h1)
      · exact Or.inr (Or.inl h1)
      · exact Or.inr (Or.inr ⟨t₁, t₂, rfl, hne1, hne2, hs.trans (List.suffix_cons a l₁), hp⟩)

/-- A suffix of an append that is no longer than the right part is a suffix
of the right part. -/
theorem suffix_of_append_of_length_le {α : Type} (a b u : List α)
    (h : u <:+ a ++ b) (hlen : u.length ≤ b.length) : u <:+ b := by
  obtain ⟨z, hz⟩ := h
  have hlz : a.length ≤ z.length := by
    have := congrArg List.length hz
    simp only [List.length_append] at this
    omega
  refine ⟨z.drop a.length, ?_⟩
  have hdz : List.drop a.length (z ++ u) = List.drop a.length (a ++ b) := by rw [hz]
  rw [List.drop_append_eq_append_drop, List.drop_append_eq_append_drop,
    Nat.sub_eq_zero_of_le hlz, Nat.sub_self, List.drop_length, List.drop_zero,
    List.drop_zero, List.nil_append] at hdz
  exact hdz

/-- Of two suffixes of the same list, the shorter is a suffix of the
longer. -/
theorem suffix_of_suffix_of_length_le {α : Type} (u v w : List α)
    (hu : u <:+ w) (hv : v <:+ w) (hlen : u.length ≤ v.length) : u <:+ v := by
  obtain ⟨zu, hzu⟩ := hu
  obtain ⟨zv, hzv⟩ := hv
  have hlzu : zv.length ≤ zu.length := by
    have h1 := congrArg List.length hzu
    have h2 := congrArg List.length hzv
    simp only [List.length_append] at h1 h2
    omega
  refine ⟨zu.drop zv.length, ?_⟩
  have hd : List.drop zv.length (zu ++ u) = List.drop zv.length (zv ++ v) := by rw [hzu, hzv]
  rw [List.drop_append_eq_append_drop, List.drop_append_eq_append_drop,
    Nat.sub_eq_zero_of_le hlzu, Nat.sub_self, List.drop_length, List.drop_zero,
    List.drop_zero, List.nil_append] at hd
  exact hd

/-- Dropping the length of the matched takeWhile run yields dropWhile. -/
theorem drop_length_takeWhile {α : Type} (p : α → Bool) :
    ∀ l : List α, List.drop (l.takeWhile p).length l = l.dropWhile p := by
  intro l
  induction l with
  | nil => rfl
  | cons c r ih =>
    by_cases h : p c
    · simp [List.takeWhile_cons, List.dropWhile_cons, h, ih]
    · simp [List.takeWhile_cons, List.dropWhile_cons, h]

/-- The head of a dropWhile result fails the predicate. -/
theorem head?_dropWhile_false {α : Type} (p : α → Bool) :
    ∀ (l : List α) (a : α), (l.dropWhile p).head? = some a → p a = false := by
  intro l
  induction l with
  | nil => intro a h; simp [List.dropWhile_nil] at h
  | cons c r ih =>
    intro a h
    rw [List.dropWhile_cons] at h
    cases hc : p c
    · simp [hc] at h
      subst h
      exact hc
    · simp [hc] at h
      exact ih a h

/-! ## Scanner lemmas -/

/-- One step of the scanner either emits the marker and resumes after a
non-empty match, or copies the head character. -/
theorem genScan_succ_eq (m : Option Char → List Char → Option Nat) (marker : List Char)
    (fuel : Nat) (prev : Option Char) (c : Char) (rest : List Char) :
    (∃ len, m prev (c :: rest) = some (len + 1) ∧
      genScan m marker (fuel + 1) prev (c :: rest) =
        marker ++ genScan m marker fuel (some ((c :: rest).getD len c)) (List.drop len rest)) ∨
    ((∀ len, m prev (c :: rest) ≠ some (len + 1)) ∧
      genScan m marker (fuel + 1) prev (c :: rest) =
        c :: genScan m marker fuel (some c) rest) := by
  rcases hmv : m prev (c :: rest) with _ | n
  · right; exact ⟨by simp, by simp [genScan, hmv]⟩
  · cases n with
    | zero => right; exact ⟨by simp, by simp [genScan, hmv]⟩
    | succ len => exact Or.inl ⟨len, rfl, by simp [genScan, hmv]⟩

/-- Prefix transfer through the scanner: a prefix of the scan output whose
characters avoid the marker is a prefix of the input. -/
theorem genScan_prefix_transfer (m : Option Char → List Char → Option Nat)
    (marker : List Char) (hm : marker ≠ []) :
    ∀ (fuel : Nat) (s : List Char) (prev : Option Char) (u : List Char),
      (∀ ch ∈ u, ch ∉ marker) → u <+: genScan m marker fuel prev s → u <+: s := by
  intro fuel
  induction fuel with
  | zero => intro s prev u _ h; simpa [genScan] using h
  | succ fuel ih =>
    intro s prev u hdisj h
    cases s with
    | nil => simpa [genScan] using h
    | cons c rest =>
      rcases genScan_succ_eq m marker fuel prev c rest with ⟨len, _, heq⟩ | ⟨-, heq⟩
      · rw [heq] at h
        cases u with
        | nil => exact List.nil_prefix
        | cons d u' =>
          cases marker with
          | nil => exact absurd rfl hm
          | cons b mk =>
            rw [List.cons_append, List.cons_prefix_cons] at h
            obtain ⟨rfl, -⟩ := h
            exact absurd (List.mem_cons_self _ _) (hdisj d (List.mem_cons_self _ _))
      · rw [heq] at h
        cases u with
        | nil => exact List.nil_prefix
        | cons d u' =>
          rw [List.cons_prefix_cons] at h
          obtain ⟨rfl, h'⟩ := h
          exact List.cons_prefix_cons.mpr
            ⟨rfl, ih rest (some d) u' (fun ch hch => hdisj ch (List.mem_cons_of_mem _ hch)) h'⟩

/-- Infix transfer through the scanner: a non-empty infix of the scan
output whose characters avoid the marker is an infix of the input. -/
theorem genScan_infix_transfer (m : Option Char → List Char → Option Nat)
    (marker : List Char) (hm : marker ≠ []) :
    ∀ (fuel : Nat) (s : List Char) (prev : Option Char) (t : List Char),
      t ≠ [] → (∀ ch ∈ t, ch ∉ marker) → t <:+: genScan m marker fuel prev s → t <:+: s := by
  intro fuel
  induction fuel with
  | zero => intro s prev t _ _ h; simpa [genScan] using h
  | succ fuel ih =>
    intro s prev t htne hdisj h
    cases s with
    | nil => simpa [genScan] using h
    | cons c rest =>
      rcases genScan_succ_eq m marker fuel prev c rest with ⟨len, _, heq⟩ | ⟨-, heq⟩
      · rw [heq] at h
        rcases infix_append_cases marker _ t h with h1 | h1 | ⟨t₁, t₂, rfl, hne1, _, hs, _⟩
        · cases t with
          | nil => exact absurd rfl htne
          | cons d t' =>
            exact absurd (h1.subset (List.mem_cons_self _ _)) (hdisj d (List.mem_cons_self _ _))
        · have h2 := ih (List.drop len rest) _ t htne hdisj h1
          exact h2.trans ((List.drop_suffix len rest).trans (List.suffix_cons c rest)).isInfix
        · cases t₁ with
          | nil => exact absurd rfl hne1
          | cons d t₁' =>
            exact absurd (hs.isInfix.subset (List.mem_cons_self _ _))
              (hdisj d (List.mem_append_left _ (List.mem_cons_self _ _)))
      · rw [heq] at h
        rw [List.infix_cons_iff] at h
        rcases h with h | h
        · cases t with
          | nil => exact absurd rfl htne
          | cons d t' =>
            rw [List.cons_prefix_cons] at h
            obtain ⟨rfl, h'⟩ := h
            have h2 := genScan_prefix_transfer m marker hm fuel rest (some d) t'
              (fun ch hch => hdisj ch (List.mem_cons_of_mem _ hch)) h'
            exact (List.cons_prefix_cons.mpr ⟨rfl, h2⟩).isInfix
        · exact List.infix_cons (ih rest (some c) t htne hdisj h)

/-- The scanner of a literal pattern with no occurrence in the subject is
the identity. -/
theorem genScan_litMatch_id (pat marker : List Char) :
    ∀ (fuel : Nat) (s : List Char) (prev : Option Char),
      ¬ pat <:+: s → genScan (litMatch pat) marker fuel prev s = s := by
  intro fuel
  induction fuel with
  | zero => intro s prev _; simp [genScan]
  | succ fuel ih =>
    intro s prev h
    cases s with
    | nil => simp [genScan]
    | cons c rest =>
      have hlm : litMatch pat prev (c :: rest) = none := by
        simp only [litMatch]
        split_ifs with h1 h2
        · rfl
        · have h3 := List.isPrefixOf_iff_prefix.mp h2
          exact absurd h3.isInfix h
        · rfl
      have h2 : ¬ pat <:+: rest := fun hh => h (List.infix_cons hh)
      simp [genScan, hlm, ih rest (some c) h2]

/-- applyLit is the identity when the non-empty pattern does not occur in
the subject. -/
theorem applyLit_id (pat marker s : List Char) (h : ¬ pat <:+: s) :
    applyLit pat marker s = s :=
  genScan_litMatch_id pat marker s.length s none h

/-! ## Coverage of the secret by the password flag -/

/-- Coverage survives chopping a prefix off the subject when the remainder
starts with whitespace (or is empty): the flag text has no whitespace, so
no occurrence of the secret in the remainder can reach back across the
cut. -/
theorem coveredAbc_append_ws (s A s' : List Char) (hcov : CoveredAbc s)
    (hsplit : s = A ++ s') (hws : ∀ hd, s'.head? = some hd → isWS hd = true) :
    CoveredAbc s' := by
  intro x y hxy
  have hs : s = (A ++ x) ++ abcTok ++ y := by
    rw [hsplit, hxy]
    simp [List.append_assoc]
  have hpw : pwTok <:+ A ++ x := hcov (A ++ x) y hs
  by_cases hlen : pwTok.length ≤ x.length
  · exact suffix_of_append_of_length_le A x pwTok hpw hlen
  · exfalso
    have hx : x <:+ A ++ x := List.suffix_append A x
    have hxpw : x <:+ pwTok :=
      suffix_of_suffix_of_length_le x pwTok (A ++ x) hx hpw (by omega)
    cases x with
    | nil =>
      have hhd : s'.head? = some 'a' := by rw [hxy]; rfl
      have := hws 'a' hhd
      exact absurd this (by decide)
    | cons d x' =>
      have hhd : s'.head? = some d := by rw [hxy]; rfl
      have hdws := hws d hhd
      have hdpw : d ∈ pwTok := hxpw.isInfix.subset (List.mem_cons_self _ _)
      have hnows : ∀ ch ∈ pwTok, isWS ch = false := by decide
      rw [hnows d hdpw] at hdws
      exact Bool.false_ne_true hdws

/-- A list with no equals sign per lastEqIdx indeed has none. -/
theorem lastEqIdx_none_no_eq :
    ∀ l : List Char, lastEqIdx l = none → ∀ ch ∈ l, ch ≠ '=' := by
  intro l
  induction l with
  | nil => intro _ ch hch; simp at hch
  | cons c r ih =>
    intro h ch hch
    rw [lastEqIdx] at h
    rcases hr : lastEqIdx r with _ | i
    · rw [hr] at h
      rcases List.mem_cons.mp hch with rfl | hch'
      · intro hc
        rw [hc] at h
        simp at h
      · exact ih hr ch hch'
    · rw [hr] at h
      simp at h

/-- Past the last equals sign of a list there is no equals sign. -/
theorem lastEqIdx_no_eq_after :
    ∀ (l : List Char) (a : Nat), lastEqIdx l = some a →
      ∀ ch ∈ List.drop (a + 1) l, ch ≠ '=' := by
  intro l
  induction l with
  | nil => intro a h; simp [lastEqIdx] at h
  | cons c r ih =>
    intro a h ch hch
    rw [lastEqIdx] at h
    rcases hr : lastEqIdx r with _ | i
    · rw [hr] at h
      by_cases hc : c = '='
      · rw [if_pos hc] at h
        have ha : a = 0 := by
          have := Option.some.inj h
          omega
        subst ha
        exact lastEqIdx_none_no_eq r hr ch (by simpa using hch)
      · rw [if_neg hc] at h
        simp at h
    · rw [hr] at h
      have ha : a = i + 1 := by
        have := Option.some.inj h
        omega
      subst ha
      exact ih i hr ch (by simpa using hch)

/-- The password pattern matches (non-trivially) at an occurrence of the
flag text followed by the secret. -/
theorem flagMatch_pw_abc (prev : Option Char) (y : List Char) :
    ∃ n, flagMatch pwPfxTok prev (pwTok ++ (abcTok ++ y)) = some (n + 1) :=
  ⟨_, rfl⟩

/-- Coverage descends to the tail at a position where the password pattern
does not match. -/
theorem coveredAbc_cons (prev : Option Char) (c : Char) (rest : List Char)
    (hcov : CoveredAbc (c :: rest))
    (hnm : ∀ n, flagMatch pwPfxTok prev (c :: rest) ≠ some (n + 1)) :
    CoveredAbc rest := by
  intro x y hxy
  have hs : c :: rest = (c :: x) ++ abcTok ++ y := by rw [hxy]; rfl
  have hpw : pwTok <:+ c :: x := hcov (c :: x) y hs
  rcases List.suffix_cons_iff.mp hpw with heq | htl
  · exfalso
    have hrw : c :: rest = pwTok ++ (abcTok ++ y) := by
      rw [hs, ← heq]
      simp [List.append_assoc]
    obtain ⟨n, hn⟩ := flagMatch_pw_abc prev y
    rw [← hrw] at hn
    exact hnm n hn
  · exact htl

/-- Coverage descends past a match of the password pattern: the match ends
either at the end of a maximal non-whitespace run (so the remainder starts
with whitespace) or, in the backtracking case, with an all-whitespace
remainder. -/
theorem flagMatch_pw_some_covered (prev : Option Char) (s : List Char) (n : Nat)
    (hm : flagMatch pwPfxTok prev s = some n) (hcov : CoveredAbc s) :
    CoveredAbc (List.drop n s) := by
  simp only [flagMatch] at hm
  split_ifs at hm with hA hB hC
  · -- backtracking branch: the separator run reaches the end of the input
    rcases hIdx : lastEqIdx ((s.drop pwPfxTok.length).takeWhile isEqWS) with _ | a
    · rw [hIdx] at hm
      exact absurd (show (none : Option Nat) = some n from hm) (by simp)
    · rw [hIdx] at hm
      have hm2 : (if 1 ≤ a then some (pwPfxTok.length + a + 1) else none) = some n := hm
      by_cases h1a : 1 ≤ a
      case neg => rw [if_neg h1a] at hm2; exact absurd hm2 (by simp)
      rw [if_pos h1a] at hm2
      have hn : n = pwPfxTok.length + a + 1 := (Option.some.inj hm2).symm
      subst hn
      intro x y hxy
      exfalso
      have hamem : 'a' ∈ List.drop (pwPfxTok.length + a + 1) s := by
        rw [hxy]
        exact List.mem_append_left _ (List.mem_append_right _ (by decide))
      have harith : pwPfxTok.length + a + 1 = pwPfxTok.length + (a + 1) := by omega
      have hdd : List.drop (pwPfxTok.length + a + 1) s
          = List.drop (a + 1) (List.drop pwPfxTok.length s) := by
        rw [List.drop_drop, harith]
      have hsep_all : ∀ ch ∈ List.drop (a + 1) (List.drop pwPfxTok.length s),
          isWS ch = true := by
        intro ch hch
        have hafter : List.dropWhile isEqWS (List.drop pwPfxTok.length s) = [] := by
          rw [← drop_length_takeWhile isEqWS (List.drop pwPfxTok.length s)]
          exact List.isEmpty_iff.mp hC
        have hrs : List.drop pwPfxTok.length s
            = List.takeWhile isEqWS (List.drop pwPfxTok.length s) := by
          conv_lhs => rw [← List.takeWhile_append_dropWhile isEqWS (List.drop pwPfxTok.length s)]
          rw [hafter, List.append_nil]
        have hmem1 : ch ∈ List.drop pwPfxTok.length s := List.drop_subset _ _ hch
        rw [hrs] at hmem1
        have h1 := List.mem_takeWhile_imp hmem1
        have h2 : ch ≠ '=' := by
          apply lastEqIdx_no_eq_after _ a hIdx
          rw [hrs] at hch
          exact hch
        simp [isEqWS] at h1
        rcases h1 with h1 | h1
        · exact absurd h1 h2
        · exact h1
      have := hsep_all 'a' (by rw [← hdd]; exact hamem)
      exact absurd this (by decide)
  · -- normal branch: the match consumes a maximal non-whitespace run
    have hn : n = pwPfxTok.length + ((s.drop pwPfxTok.length).takeWhile isEqWS).length +
        (((s.drop pwPfxTok.length).drop
            ((s.drop pwPfxTok.length).takeWhile isEqWS).length).takeWhile
          (fun c => !isWS c)).length :=
      (Option.some.inj hm).symm
    apply coveredAbc_append_ws s (s.take n) (s.drop n) hcov (List.take_append_drop n s).symm
    intro hd hhd
    have hdrop : List.drop n s = List.dropWhile (fun c => !isWS c)
        ((s.drop pwPfxTok.length).drop
          ((s.drop pwPfxTok.length).takeWhile isEqWS).length) := by
      rw [hn, ← drop_length_takeWhile (fun c => !isWS c)
        ((s.drop pwPfxTok.length).drop ((s.drop pwPfxTok.length).takeWhile isEqWS).length),
        List.drop_drop, List.drop_drop, Nat.add_assoc]
    rw [hdrop] at hhd
    have := head?_dropWhile_false (fun c => !isWS c) _ hd hhd
    simpa using this

/-- Scanning with the password pattern a string whose secret occurrences
are all covered by the flag text yields an output free of the secret. -/
theorem pwScan_no_abc :
    ∀ (fuel : Nat) (s : List Char) (prev : Option Char),
      s.length ≤ fuel → CoveredAbc s →
      ¬ abcTok <:+: genScan (flagMatch pwPfxTok) redactedTok fuel prev s := by
  intro fuel
  induction fuel with
  | zero =>
    intro s prev hlen hcov h
    cases s with
    | nil =>
      simp only [genScan] at h
      exact (by decide : ¬ abcTok <:+: ([] : List Char)) h
    | cons c rest => simp at hlen
  | succ fuel ih =>
    intro s prev hlen hcov h
    cases s with
    | nil =>
      simp only [genScan] at h
      exact (by decide : ¬ abcTok <:+: ([] : List Char)) h
    | cons c rest =>
      rcases genScan_succ_eq (flagMatch pwPfxTok) redactedTok fuel prev c rest with
        ⟨len, hmv, heq⟩ | ⟨hnm, heq⟩
      · rw [heq] at h
        rcases infix_append_cases redactedTok _ abcTok h with h1 | h1 | ⟨t₁, t₂, hsplit, hne1, _, hs, _⟩
        · have h2 : 'a' ∈ redactedTok := h1.subset (by decide : 'a' ∈ abcTok)
          exact (by decide : 'a' ∉ redactedTok) h2
        · have hcov2 : CoveredAbc (List.drop (len + 1) (c :: rest)) :=
            flagMatch_pw_some_covered prev (c :: rest) (len + 1) hmv hcov
          have hlen2 : (List.drop len rest).length ≤ fuel := by
            rw [List.length_drop]
            simp only [List.length_cons] at hlen
            omega
          exact ih (List.drop len rest) _ hlen2 hcov2 h1
        · cases t₁ with
          | nil => exact absurd rfl hne1
          | cons d t₁' =>
            have hd1 : d ∈ redactedTok := hs.isInfix.subset (List.mem_cons_self _ _)
            have hd2 : d ∈ abcTok := by
              rw [hsplit]
              exact List.mem_append_left _ (List.mem_cons_self _ _)
            exact (by decide : ∀ ch ∈ abcTok, ch ∉ redactedTok) d hd2 hd1
      · rw [heq] at h
        rw [List.infix_cons_iff] at h
        rcases h with h | h
        · have habc : abcTok = 'a' :: ("bc123").toList := rfl
          rw [habc, List.cons_prefix_cons] at h
          obtain ⟨hc, hpre⟩ := h
          have h2 : ("bc123").toList <+: rest :=
            genScan_prefix_transfer _ redactedTok (by decide) fuel rest (some c) _
              (by decide) hpre
          obtain ⟨rr, hrr⟩ := h2
          have hdecomp : c :: rest = [] ++ abcTok ++ rr := by
            rw [List.nil_append, habc, ← hc, List.cons_append, hrr]
          have hpw := hcov [] rr hdecomp
          exact absurd hpw.length_le (by decide)
        · have hcov2 : CoveredAbc rest := coveredAbc_cons prev c rest hcov hnm
          exact ih rest (some c) (by simpa using hlen) hcov2 h

/-- A flag-pattern pass never introduces the secret substring. -/
theorem applyFlagPat_preserves (pfx s : List Char) (h : ¬ abcTok <:+: s) :
    ¬ abcTok <:+: applyFlagPat pfx s := fun hh =>
  h (genScan_infix_transfer _ redactedTok (by decide) s.length s none abcTok
    (by decide) (by decide) hh)

/-- The word-boundary pass never introduces the secret substring. -/
theorem applyWordPat_preserves (s : List Char) (h : ¬ abcTok <:+: s) :
    ¬ abcTok <:+: applyWordPat s := fun hh =>
  h (genScan_infix_transfer _ redactedTok (by decide) s.length s none abcTok
    (by decide) (by decide) hh)

/-- A literal-replacement pass whose marker avoids the characters of the
secret never introduces the secret substring. -/
theorem applyLit_preserves (pat marker s : List Char) (hm : marker ≠ [])
    (hdisj : ∀ ch ∈ abcTok, ch ∉ marker) (h : ¬ abcTok <:+: s) :
    ¬ abcTok <:+: applyLit pat marker s := fun hh =>
  h (genScan_infix_transfer _ marker hm s.length s none abcTok (by decide) hdisj hh)

/-- The password pass removes the secret from a covered subject. -/
theorem applyFlagPat_pw_no_abc (s : List Char) (hcov : CoveredAbc s) :
    ¬ abcTok <:+: applyFlagPat pwPfxTok s :=
  pwScan_no_abc s.length s none le_rfl hcov

/-- Soundness of the coverage scan worker. -/
theorem goCov_sound :
    ∀ (rest preRev : List Char), goCov preRev rest = true →
      ∀ x y, rest = x ++ abcTok ++ y → pwRevTok <+: (x.reverse ++ preRev) := by
  intro rest
  induction rest with
  | nil =>
    intro preRev _ x y hxy
    exfalso
    have := congrArg List.length hxy
    simp [abcTok] at this
    omega
  | cons c r ih =>
    intro preRev hgo x y hxy
    simp only [goCov, Bool.and_eq_true] at hgo
    obtain ⟨h1, h2⟩ := hgo
    cases x with
    | nil =>
      rw [List.nil_append] at hxy
      have hpre : abcTok <+: c :: r := by
        rw [hxy]
        exact List.prefix_append abcTok y
      have hb : abcTok.isPrefixOf (c :: r) = true := List.isPrefixOf_iff_prefix.mpr hpre
      rw [hb] at h1
      simp at h1
      simpa using h1
    | cons d x' =>
      rw [List.cons_append, List.cons_append] at hxy
      injection hxy with hc hr
      subst hc
      have h3 := ih (c :: preRev) h2 x' y (by simpa using hr)
      rw [List.reverse_cons, List.append_assoc]
      simpa using h3

/-- Soundness of the executable coverage check. -/
theorem coveredAbcB_sound (s : List Char) (h : coveredAbcB s = true) : CoveredAbc s := by
  intro x y hxy
  have h2 := goCov_sound s [] h x y hxy
  rw [List.append_nil] at h2
  exact List.reverse_prefix.mp h2

/-- Claim C6 (amended): for every raw output in which every occurrence of
abc123 is immediately preceded by the text of the password flag, and for
every non-empty command string that does not occur in the raw output, the
sanitized output contains no occurrence of abc123, for any configured
secret values. -/
theorem c6_sanitize_removes_password_secret
    (value command : List Char) (secrets : List (List Char))
    (hcmd : command ≠ []) (hocc : ¬ command <:+: value)
    (hcov : coveredAbcB value = true) :
    ¬ abcTok <:+: sanitizeOutput value command secrets := by
  have h0 : applyLit command commandRedactedTok value = value := applyLit_id _ _ _ hocc
  simp only [sanitizeOutput]
  rw [h0]
  have h1 : ¬ abcTok <:+: applyFlagPat (("--password").toList) value :=
    applyFlagPat_pw_no_abc value (coveredAbcB_sound value hcov)
  have h2 := applyFlagPat_preserves (("--pass").toList) _ h1
  have h3 := applyFlagPat_preserves (("--token").toList) _ h2
  have h4 := applyFlagPat_preserves (("--auth").toList) _ h3
  have h5 := applyFlagPat_preserves (("--apikey").toList) _ h4
  have h6 := applyFlagPat_preserves (("--api-key").toList) _ h5
  have h7 := applyFlagPat_preserves (("--secret").toList) _ h6
  have h8 := applyFlagPat_preserves (("-p").toList) _ h7
  have h9 := applyWordPat_preserves _ h8
  have hfold : ∀ (ss : List (List Char)) (acc : List Char), ¬ abcTok <:+: acc →
      ¬ abcTok <:+: ss.foldl
        (fun acc secret =>
          if secret.isEmpty || (trimChars secret).isEmpty then acc
          else applyLit secret starsTok acc) acc := by
    intro ss
    induction ss with
    | nil => intro acc h; simpa using h
    | cons sec ss ih =>
      intro acc h
      rw [List.foldl_cons]
      apply ih
      by_cases hc : (sec.isEmpty || (trimChars sec).isEmpty) = true
      · rw [if_pos hc]
        exact h
      · rw [if_neg hc]
        exact applyLit_preserves sec starsTok acc (by decide) (by decide) h
  exact hfold secrets _ h9

/-- Witness for C6: a concrete covered output, command and empty secret
set satisfying the hypotheses. -/
theorem c6_witness :
    ¬ abcTok <:+: sanitizeOutput (("--password=abc123").toList) (("ls").toList) [] :=
  c6_sanitize_removes_password_secret (("--password=abc123").toList) (("ls").toList) []
    (by decide) (by decide) (by decide)

/-- Counterexample to C6 as stated: a raw output containing the substring
of the password flag with the secret, whose sanitized form still contains
abc123 (a second, bare occurrence of the secret survives all patterns). -/
theorem c6_counterexample :
    abcTok <:+: sanitizeOutput (("--password=abc123 abc123").toList) (("cmd").toList) [] := by
  decide

/-- Claim C1 (amended): for a configured non-empty command, the rate
limiter timestamp is set to the completion time after a successful
execution, is left unchanged by a failed execution, and is never updated
before the rate-limit wait in the event order. -/
theorem c1_last_command_time (c : String) (st : ClientState) (now : Int)
    (outcome : ExecOutcome) (hc : trimChars c.toList ≠ []) :
    (∀ tdone, outcome = ExecOutcome.ok tdone →
        (executeCommand (some c) st now outcome).state.lastCommandTime = tdone) ∧
    (∀ terr, outcome = ExecOutcome.err terr →
        (executeCommand (some c) st now outcome).state = st) ∧
    noUpdateBeforeWait (executeCommand (some c) st now outcome).events = true := by
  have hc2 : ¬ trimChars c.data = [] := hc
  refine ⟨?_, ?_, ?_⟩
  · intro tdone ho
    subst ho
    simp [executeCommand, hc2]
  · intro terr ho
    subst ho
    simp [executeCommand, hc2]
  · cases outcome <;>
      by_cases hwcond : st.lastCommandTime > 0 ∧ now - st.lastCommandTime < RATE_LIMIT_MS <;>
      simp [executeCommand, hc2, hwcond, noUpdateBeforeWait, hasWaited]

/-- Witness for C1 at a concrete successful run. -/
theorem c1_witness :
    (executeCommand (some ("x")) ⟨none, 0⟩ 100 (ExecOutcome.ok 150)).state.lastCommandTime =
      150 ∧
    noUpdateBeforeWait (executeCommand (some ("x")) ⟨none, 0⟩ 100 (ExecOutcome.ok 150)).events =
      true :=
  ⟨(c1_last_command_time ("x") ⟨none, 0⟩ 100 (ExecOutcome.ok 150) (by decide)).1 150 rfl,
   (c1_last_command_time ("x") ⟨none, 0⟩ 100 (ExecOutcome.ok 150) (by decide)).2.2⟩

/-- Counterexample to C1 as stated: on a failed execution the timestamp is
not updated to the current time; it keeps its previous value. -/
theorem c1_counterexample :
    (executeCommand (some ("x")) ⟨none, 1000⟩ 2000
      (ExecOutcome.err 3000)).state.lastCommandTime = 1000 ∧ (1000 : Int) ≠ 3000 :=
  ⟨rfl, by decide⟩

/-- Claim C2 (amended): loading settings from an existing file that fails
to parse logs a warning, yields the hard-coded defaults, and writes the
defaults back over the corrupt file. -/
theorem c2_corrupt_settings_load :
    loadSettingsFromFile true none =
      (settingsDefaults,
       [(LogLevel.warning, loadSettingsFailMsg), (LogLevel.debug, savedSettingsMsg)],
       [settingsDefaults]) := rfl

/-- Counterexample to C2 as stated: the load of a corrupt settings file
does write to the file (the write list is non-empty), so the on-disk
content is not left unchanged. -/
theorem c2_counterexample :
    (loadSettingsFromFile true none).2.2 ≠ ([] : List PartialSettings) := by
  decide

/-- Claim C3 (amended): a successfully parsed settings document is returned
as is, with no merge over the defaults: fields absent on disk stay absent,
and nothing is written back. -/
theorem c3_settings_load_no_merge (doc : PartialSettings) :
    (loadSettingsFromFile true (some doc)).1 = doc ∧
    (loadSettingsFromFile true (some doc)).2.2 = ([] : List PartialSettings) :=
  ⟨rfl, rfl⟩

/-- Counterexample to C3 as stated: loading the empty settings document
yields the document itself, not the default-merged object required by the
claim. -/
theorem c3_counterexample :
    (loadSettingsFromFile true (some emptyPartialSettings)).1 ≠
      specMergeSettings emptyPartialSettings := by
  decide

/-- Claim C7: loading a control-state document holding only pvSurplus
yields the complete four-flag state, and getControlState always returns all
four flags with defaults for absent fields. -/
theorem c7_control_state_backfill :
    (loadControlStateFromFile true (some ⟨some true, none, none, none⟩)).1 =
      ⟨true, false, false, false⟩ ∧
    ∀ p : PartialControlState,
      getControlState p =
        ⟨p.pvSurplus.getD false, p.nightCharging.getD false,
         p.batteryLock.getD false, p.gridCharging.getD false⟩ :=
  ⟨rfl, fun _ => rfl⟩

/-- Claim C9: with a configuration whose grid charge enable command is
absent or trim-empty, enableGridCharge resolves successfully, spawns
nothing (the only event is the skip), and leaves the state, including the
rate-limiter timestamp, unchanged. -/
theorem c9_empty_command_noop (st : ClientState) (cfg : E3dcConfig) (now : Int)
    (outcome : ExecOutcome) (r : ExecResult)
    (hcfg : st.config = some cfg)
    (hempty : cfg.gridChargeEnableCommand = none ∨
      ∃ c, cfg.gridChargeEnableCommand = some c ∧ trimChars c.toList = [])
    (h : enableGridCharge st now outcome = some r) :
    r.ok = true ∧ r.state = st ∧ r.events = [ExecEvent.skippedNoCommand] ∧
      r.execStart = none := by
  unfold enableGridCharge at h
  rw [hcfg] at h
  have hr : executeCommand cfg.gridChargeEnableCommand st now outcome = r :=
    Option.some.inj h
  rcases hempty with he | ⟨c, he, htrim⟩
  · rw [he] at hr
    subst hr
    exact ⟨rfl, rfl, rfl, rfl⟩
  · rw [he] at hr
    subst hr
    have htrim2 : trimChars c.data = [] := htrim
    have hskip : executeCommand (some c) st now outcome =
        ⟨st, [ExecEvent.skippedNoCommand], true, none⟩ := by
      simp [executeCommand, htrim2]
    rw [hskip]
    exact ⟨rfl, rfl, rfl, rfl⟩

/-- Witness for C9 at a concrete whitespace-only configured command. -/
theorem c9_witness :
    (⟨⟨some ⟨true, none, none, some ("  "), none, none⟩, 42⟩,
        [ExecEvent.skippedNoCommand], true, none⟩ : ExecResult).ok = true ∧
    (⟨⟨some ⟨true, none, none, some ("  "), none, none⟩, 42⟩,
        [ExecEvent.skippedNoCommand], true, none⟩ : ExecResult).state =
      ⟨some ⟨true, none, none, some ("  "), none, none⟩, 42⟩ ∧
    (⟨⟨some ⟨true, none, none, some ("  "), none, none⟩, 42⟩,
        [ExecEvent.skippedNoCommand], true, none⟩ : ExecResult).events =
      [ExecEvent.skippedNoCommand] ∧
    (⟨⟨some ⟨true, none, none, some ("  "), none, none⟩, 42⟩,
        [ExecEvent.skippedNoCommand], true, none⟩ : ExecResult).execStart = none :=
  c9_empty_command_noop ⟨some ⟨true, none, none, some ("  "), none, none⟩, 42⟩
    ⟨true, none, none, some ("  "), none, none⟩ 5 (ExecOutcome.ok 9)
    ⟨⟨some ⟨true, none, none, some ("  "), none, none⟩, 42⟩,
      [ExecEvent.skippedNoCommand], true, none⟩
    rfl (Or.inr ⟨("  "), rfl, by decide⟩) rfl

/-- Claim C10: through any sequence of configure and disconnect calls a
stored configuration is always enabled, and isConfigured coincides with
the presence of a stored configuration. -/
theorem c10_configured_invariant (ops : List ClientOp) :
    (applyOps none ops).all (fun cfg => cfg.enabled) = true ∧
    isConfigured (applyOps none ops) = (applyOps none ops).isSome := by
  have key : ∀ (ops : List ClientOp) (st : Option E3dcConfig),
      st.all (fun cfg => cfg.enabled) = true →
      (applyOps st ops).all (fun cfg => cfg.enabled) = true := by
    intro ops
    induction ops with
    | nil => intro st h; exact h
    | cons op ops ih =>
      intro st h
      have : applyOps st (op :: ops) = applyOps (applyOp st op) ops := rfl
      rw [this]
      apply ih
      cases op with
      | configure cfg =>
        by_cases hcfg : cfg.enabled
        · simp [applyOp, hcfg, Option.all]
        · simpa [applyOp, hcfg] using h
      | disconnect => simp [applyOp, Option.all]
  have h1 := key ops none rfl
  refine ⟨h1, ?_⟩
  rcases hv : applyOps none ops with _ | cfg
  · rfl
  · rw [hv] at h1
    simp only [isConfigured, Option.isSome]
    simpa [Option.all] using h1

/-- Claim C5: with a configured non-empty discharge-lock command, when a
first lockDischarge call succeeds (completing no earlier than it started,
at a positive wall-clock time) and a second call is issued no earlier than
that completion, the second underlying execution starts at least
RATE_LIMIT_MS after the first execution start. -/
theorem c5_rate_limit (cfg : E3dcConfig) (c : String) (st0 : ClientState)
    (now1 tdone now2 : Int) (outcome2 : ExecOutcome) (r1 r2 : ExecResult) (s1 s2 : Int)
    (hcfg : st0.config = some cfg)
    (hcmd : cfg.dischargeLockEnableCommand = some c)
    (hc : trimChars c.toList ≠ [])
    (h1 : lockDischarge st0 now1 (ExecOutcome.ok tdone) = some r1)
    (hs1 : r1.execStart = some s1)
    (hcomp : s1 ≤ tdone) (hpos : 0 < tdone) (hseq : tdone ≤ now2)
    (h2 : lockDischarge r1.state now2 outcome2 = some r2)
    (hs2 : r2.execStart = some s2) :
    s1 + 5000 ≤ s2 := by
  have hc2 : ¬ trimChars c.data = [] := hc
  unfold lockDischarge at h1
  rw [hcfg] at h1
  have hr1 : executeCommand cfg.dischargeLockEnableCommand st0 now1 (ExecOutcome.ok tdone) =
      r1 := Option.some.inj h1
  rw [hcmd] at hr1
  have hstate : r1.state = ⟨st0.config, tdone⟩ := by
    rw [← hr1]
    simp [executeCommand, hc2]
  unfold lockDischarge at h2
  rw [hstate, hcfg] at h2
  have hr2 : executeCommand cfg.dischargeLockEnableCommand ⟨some cfg, tdone⟩ now2 outcome2 =
      r2 := by
    have := Option.some.inj h2
    exact this
  rw [hcmd] at hr2
  by_cases hwin : tdone > 0 ∧ now2 - tdone < RATE_LIMIT_MS
  · have hstart2 : r2.execStart = some (now2 + (RATE_LIMIT_MS - (now2 - tdone))) := by
      rw [← hr2]
      cases outcome2 <;> simp [executeCommand, hc2, hwin]
    rw [hstart2] at hs2
    have hs2v : s2 = now2 + (RATE_LIMIT_MS - (now2 - tdone)) := (Option.some.inj hs2).symm
    have hR : RATE_LIMIT_MS = 5000 := rfl
    omega
  · have hstart2 : r2.execStart = some now2 := by
      rw [← hr2]
      cases outcome2 <;> simp [executeCommand, hc2, hwin]
    rw [hstart2] at hs2
    have hs2v : s2 = now2 := (Option.some.inj hs2).symm
    have hR : RATE_LIMIT_MS = 5000 := rfl
    rw [hR] at hwin
    omega

/-- Witness for C5 at concrete times: first start at 1000, completion at
1200, second call at 1300 waits until 6200. -/
theorem c5_witness : (1000 : Int) + 5000 ≤ 6200 :=
  c5_rate_limit ⟨true, some ("do"), none, none, none, none⟩ ("do")
    ⟨some ⟨true, some ("do"), none, none, none, none⟩, 0⟩
    1000 1200 1300 (ExecOutcome.ok 9999)
    ⟨⟨some ⟨true, some ("do"), none, none, none, none⟩, 1200⟩,
      [ExecEvent.execStarted 1000, ExecEvent.updatedLct 1200], true, some 1000⟩
    ⟨⟨some ⟨true, some ("do"), none, none, none, none⟩, 9999⟩,
      [ExecEvent.waited 4900, ExecEvent.execStarted 6200, ExecEvent.updatedLct 9999],
      true, some 6200⟩
    1000 6200 rfl rfl (by decide) rfl rfl (by decide) (by decide) (by decide) rfl rfl

/-- optTruthy at an absent value. -/
theorem optTruthy_none : optTruthy none = false := rfl

/-- optTruthy at a present value. -/
theorem optTruthy_some (s : String) : optTruthy (some s) = !(s == ("")) := rfl

/-- boolTruthy at an absent value. -/
theorem boolTruthy_none : boolTruthy none = false := rfl

/-- boolTruthy at a present value. -/
theorem boolTruthy_some (b : Bool) : boolTruthy (some b) = b := rfl

/-- A falsy optional string that is not the present empty string is
absent. -/
theorem optTruthy_false_of_ne_empty (o : Option String)
    (h1 : optTruthy o = false) (h2 : o ≠ some ("")) : o = none := by
  rcases o with _ | s
  · rfl
  · rw [optTruthy_some] at h1
    simp at h1
    exfalso
    apply h2
    rw [h1]

/-- Claim C4 (amended): starting from settings with demo mode off, no
backup fields, a non-empty wallbox address and an E3DC address that is not
the empty string, toggling demoMode on and then off restores the wallbox
address, the E3DC address and both FHEM URLs, and leaves no backup
fields. -/
theorem c4_demo_roundtrip (s : Settings)
    (hdm : boolTruthy s.demoMode = false)
    (hw : s.wallboxIp ≠ (""))
    (he : s.e3dcIp ≠ some (""))
    (hb1 : s.wallboxIpBackup = none) (hb2 : s.e3dcIpBackup = none)
    (hb3 : s.pvSurplusOnUrlBackup = none) (hb4 : s.pvSurplusOffUrlBackup = none) :
    ((saveSettings (some ((saveSettings (some s) { s with demoMode := some true }).1))
        { (saveSettings (some s) { s with demoMode := some true }).1 with
          demoMode := some false }).1.wallboxIp = s.wallboxIp ∧
     (saveSettings (some ((saveSettings (some s) { s with demoMode := some true }).1))
        { (saveSettings (some s) { s with demoMode := some true }).1 with
          demoMode := some false }).1.e3dcIp = s.e3dcIp ∧
     (saveSettings (some ((saveSettings (some s) { s with demoMode := some true }).1))
        { (saveSettings (some s) { s with demoMode := some true }).1 with
          demoMode := some false }).1.pvSurplusOnUrl = s.pvSurplusOnUrl ∧
     (saveSettings (some ((saveSettings (some s) { s with demoMode := some true }).1))
        { (saveSettings (some s) { s with demoMode := some true }).1 with
          demoMode := some false }).1.pvSurplusOffUrl = s.pvSurplusOffUrl ∧
     (saveSettings (some ((saveSettings (some s) { s with demoMode := some true }).1))
        { (saveSettings (some s) { s with demoMode := some true }).1 with
          demoMode := some false }).1.wallboxIpBackup = none ∧
     (saveSettings (some ((saveSettings (some s) { s with demoMode := some true }).1))
        { (saveSettings (some s) { s with demoMode := some true }).1 with
          demoMode := some false }).1.e3dcIpBackup = none ∧
     (saveSettings (some ((saveSettings (some s) { s with demoMode := some true }).1))
        { (saveSettings (some s) { s with demoMode := some true }).1 with
          demoMode := some false }).1.pvSurplusOnUrlBackup = none ∧
     (saveSettings (some ((saveSettings (some s) { s with demoMode := some true }).1))
        { (saveSettings (some s) { s with demoMode := some true }).1 with
          demoMode := some false }).1.pvSurplusOffUrlBackup = none) := by
  obtain ⟨wIp, e3, pvOn, pvOff, wB, eB, oB, fB, dm, sch, tz⟩ := s
  simp only at hdm hw he hb1 hb2 hb3 hb4
  subst hb1 hb2 hb3 hb4
  have hdm2 : dm = none ∨ dm = some false := by
    rcases dm with _ | b
    · exact Or.inl rfl
    · right
      simp [boolTruthy] at hdm
      rw [hdm]
  have hwb : (wIp == ("")) = false := by
    rw [beq_eq_false_iff_ne]
    exact hw
  clear hdm
  rcases Bool.eq_false_or_eq_true (optTruthy e3) with hv | hv
  · rcases hdm2 with rfl | rfl <;>
      rcases Bool.eq_false_or_eq_true (optTruthy pvOn) with hu | hu <;>
      rcases Bool.eq_false_or_eq_true (optTruthy pvOff) with hw2 | hw2 <;>
      simp [saveSettings, demoOn, demoOff, optTruthy_none, optTruthy_some,
        boolTruthy_none, boolTruthy_some, hwb, hv, hu, hw2]
  · have he3 : e3 = none := optTruthy_false_of_ne_empty e3 hv he
    subst he3
    rcases hdm2 with rfl | rfl <;>
      rcases Bool.eq_false_or_eq_true (optTruthy pvOn) with hu | hu <;>
      rcases Bool.eq_false_or_eq_true (optTruthy pvOff) with hw2 | hw2 <;>
      simp [saveSettings, demoOn, demoOff, optTruthy_none, optTruthy_some,
        boolTruthy_none, boolTruthy_some, hwb, hu, hw2]

/-- Counterexample to C4 as stated: with an empty wallbox address (a valid
settings string), toggling demo mode on and then off does not restore the
original value; the exit path falls back to the compiled-in default
address. -/
theorem c4_counterexample :
    (saveSettings
        (some ((saveSettings (some demoEmptyWallboxSettings)
          { demoEmptyWallboxSettings with demoMode := some true }).1))
        { (saveSettings (some demoEmptyWallboxSettings)
            { demoEmptyWallboxSettings with demoMode := some true }).1 with
          demoMode := some false }).1.wallboxIp ≠ demoEmptyWallboxSettings.wallboxIp := by
  decide

/-- Witness for C4 at a concrete non-demo settings object. -/
theorem c4_witness :
    ((saveSettings (some ((saveSettings (some demoRoundtripSample)
        { demoRoundtripSample with demoMode := some true }).1))
        { (saveSettings (some demoRoundtripSample)
            { demoRoundtripSample with demoMode := some true }).1 with
          demoMode := some false }).1.wallboxIp = demoRoundtripSample.wallboxIp ∧
     (saveSettings (some ((saveSettings (some demoRoundtripSample)
        { demoRoundtripSample with demoMode := some true }).1))
        { (saveSettings (some demoRoundtripSample)
            { demoRoundtripSample with demoMode := some true }).1 with
          demoMode := some false }).1.e3dcIp = demoRoundtripSample.e3dcIp ∧
     (saveSettings (some ((saveSettings (some demoRoundtripSample)
        { demoRoundtripSample with demoMode := some true }).1))
        { (saveSettings (some demoRoundtripSample)
            { demoRoundtripSample with demoMode := some true }).1 with
          demoMode := some false }).1.pvSurplusOnUrl = demoRoundtripSample.pvSurplusOnUrl ∧
     (saveSettings (some ((saveSettings (some demoRoundtripSample)
        { demoRoundtripSample with demoMode := some true }).1))
        { (saveSettings (some demoRoundtripSample)
            { demoRoundtripSample with demoMode := some true }).1 with
          demoMode := some false }).1.pvSurplusOffUrl = demoRoundtripSample.pvSurplusOffUrl ∧
     (saveSettings (some ((saveSettings (some demoRoundtripSample)
        { demoRoundtripSample with demoMode := some true }).1))
        { (saveSettings (some demoRoundtripSample)
            { demoRoundtripSample with demoMode := some true }).1 with
          demoMode := some false }).1.wallboxIpBackup = none ∧
     (saveSettings (some ((saveSettings (some demoRoundtripSample)
        { demoRoundtripSample with demoMode := some true }).1))
        { (saveSettings (some demoRoundtripSample)
            { demoRoundtripSample with demoMode := some true }).1 with
          demoMode := some false }).1.e3dcIpBackup = none ∧
     (saveSettings (some ((saveSettings (some demoRoundtripSample)
        { demoRoundtripSample with demoMode := some true }).1))
        { (saveSettings (some demoRoundtripSample)
            { demoRoundtripSample with demoMode := some true }).1 with
          demoMode := some false }).1.pvSurplusOnUrlBackup = none ∧
     (saveSettings (some ((saveSettings (some demoRoundtripSample)
        { demoRoundtripSample with demoMode := some true }).1))
        { (saveSettings (some demoRoundtripSample)
            { demoRoundtripSample with demoMode := some true }).1 with
          demoMode := some false }).1.pvSurplusOffUrlBackup = none) :=
  c4_demo_roundtrip demoRoundtripSample rfl (by decide) (by decide) rfl rfl rfl rfl

/-- Claim C8: on the demo-off transition without backups in the previous
settings, a wallbox address still holding the mock value falls back to the
compiled-in default with a warning, and an E3DC address still holding the
mock value is removed entirely with a warning. -/
theorem c8_demo_off_no_backup (p s : Settings)
    (hp : boolTruthy p.demoMode = true) (hs : boolTruthy s.demoMode = false)
    (hwb : optTruthy p.wallboxIpBackup = false) (hw : s.wallboxIp = mockWallboxIp)
    (heb : optTruthy p.e3dcIpBackup = false) (he : s.e3dcIp = some mockE3dcIp) :
    (saveSettings (some p) s).1.wallboxIp = defaultWallboxIp ∧
    (saveSettings (some p) s).1.e3dcIp = none ∧
    (LogLevel.warning, wallboxFallbackWarnMsg) ∈ (saveSettings (some p) s).2 ∧
    (LogLevel.warning, e3dcRemovedWarnMsg) ∈ (saveSettings (some p) s).2 := by
  rcases Bool.eq_false_or_eq_true (optTruthy p.pvSurplusOnUrlBackup) with ho | ho <;>
    rcases Bool.eq_false_or_eq_true (optTruthy p.pvSurplusOffUrlBackup) with hf | hf <;>
    simp [saveSettings, demoOff, optTruthy_none, optTruthy_some, boolTruthy_none,
      boolTruthy_some, hp, hs, hwb, hw, heb, he, ho, hf]

/-- Witness for C8 at concrete previous and incoming settings. -/
theorem c8_witness :
    (saveSettings (some demoPrevSample) demoNewSample).1.wallboxIp = defaultWallboxIp ∧
    (saveSettings (some demoPrevSample) demoNewSample).1.e3dcIp = none ∧
    (LogLevel.warning, wallboxFallbackWarnMsg) ∈ (saveSettings (some demoPrevSample) demoNewSample).2 ∧
    (LogLevel.warning, e3dcRemovedWarnMsg) ∈ (saveSettings (some demoPrevSample) demoNewSample).2 :=
  c8_demo_off_no_backup demoPrevSample demoNewSample rfl rfl rfl rfl rfl rfl

end EnergyLink
